import Mathlib

/-!
# Verification of the drone AI control server (`ai_server.py`)

A shallow embedding, over exact real arithmetic, of the per-tick control
computation of `src/ai_server.py`: the search-pattern finite state machine,
the interception steering, the obstacle/boundary avoidance field, the actuator
command derivation, the output smoothing filter, and the request validation of
the `/get_controls` endpoint.

Persistent server state (the `search_state` and `control_state` dictionaries)
is modelled by explicit state passing: a tick maps the pair of states and a
request to new states plus the response payload.  Python float arithmetic is
modelled by real arithmetic.
-/

set_option maxHeartbeats 1600000

namespace AiServer

noncomputable section

/-! ## Data model -/

/-- A 3-d vector, as the `{x, y, z}` dictionaries of the request payload. -/
structure Vec3 where
  x : ℝ
  y : ℝ
  z : ℝ

/-- A horizontal-plane vector `{x, z}` (the `raw_dir`/`seek_dir`/`push` dicts). -/
structure Vec2 where
  x : ℝ
  z : ℝ

/-- The `drone` object of the request. -/
structure DroneState where
  position : Vec3
  velocity : Vec3
  yaw : ℝ
  maxTurn : ℝ
  targetAlt : ℝ
  speed : ℝ

/-- The optional `lockedTarget` object of the request. -/
structure Target where
  position : Vec3
  velocity : Vec3

/-- The `terrain` object of the request. -/
structure Terrain where
  height_at_drone : ℝ
  ahead_max_height : ℝ

/-- One entry of the `obstacles` list: `{pos: {x, z}, radius}`. -/
structure Obstacle where
  pos : Vec2
  radius : ℝ

/-- The `phase` tag of the search FSM (the strings `'hold'` / `'transit'`). -/
inductive Phase where
  | hold
  | transit
deriving DecidableEq

/-- The persistent `search_state` dictionary. -/
structure SearchState where
  inited : Bool
  centerYaw : ℝ
  side : ℝ
  timer : ℝ
  phase : Phase
  seekDir : Option Vec2

/-- The persistent `control_state` dictionary. -/
structure ControlState where
  last_yaw : ℝ
  last_throttle : ℝ
  last_pitch : ℝ

/-- The `controls` object of a successful response. -/
structure Controls where
  yaw : ℝ
  throttle : ℝ
  pitch : ℝ

/-- Initial `search_state` at server start. -/
def init_search_state : SearchState := ⟨false, 0, 1, 0, Phase.hold, none⟩

/-- Initial `control_state` at server start. -/
def init_control_state : ControlState := ⟨0, 0, 0⟩

/-! ## Constants (lines 8-13) -/

def SWEEP_HOLD : ℝ := 3.0
def SWEEP_TRANSIT : ℝ := 0.9
def SWEEP_ANGLE_DEG : ℝ := 40
def HALF : ℝ := 900 * 0.48

/-- Value of `math.radians(SWEEP_ANGLE_DEG)`. -/
def sweepAmp : ℝ := SWEEP_ANGLE_DEG * Real.pi / 180

/-! ## Helper functions (lines 32-76) -/

/-- Python `clamp(value, min_val, max_val)` (line 32). -/
def clamp (value min_val max_val : ℝ) : ℝ := max min_val (min value max_val)

/-- Python `math.atan2(y, x)`, as the argument of the complex number `x + y i`. -/
def atan2 (y x : ℝ) : ℝ := Complex.arg (x + y * Complex.I)

/-- Python `wrap_angle(a) = atan2(sin a, cos a)` (line 35). -/
def wrap_angle (a : ℝ) : ℝ := atan2 (Real.sin a) (Real.cos a)

/-- Python `lerp_angle(a, b, t)` (line 38). -/
def lerp_angle (a b t : ℝ) : ℝ := a + wrap_angle (b - a) * clamp t 0 1

/-- Python `math.copysign(m, x)` as used on reals (x = ±0.0 does not arise separately). -/
def copysign (m x : ℝ) : ℝ := if x < 0 then -m else m

/-- The per-obstacle repulsive contribution of the loop body, lines 51-61. -/
def obstaclePush (ahead : Vec2) (o : Obstacle) : Vec2 :=
  let d2 := (ahead.x - o.pos.x) ^ 2 + (ahead.z - o.pos.z) ^ 2
  let r := o.radius + 1.8
  if d2 < r * r then
    let push_vec_x := ahead.x - o.pos.x
    let push_vec_z := ahead.z - o.pos.z
    let dist := Real.sqrt d2
    if 1e-6 < dist then
      ⟨push_vec_x / dist * (1 - dist / r), push_vec_z / dist * (1 - dist / r)⟩
    else ⟨0, 0⟩
  else ⟨0, 0⟩

/-- Python `steer_avoid(pos, vel, obstacles)` (lines 42-76): obstacle repulsion around
the look-ahead point plus boundary repulsion; only the `x`/`z` components are
read downstream, so the result is a `Vec2`. -/
def steer_avoid (pos : Vec3) (vel : Vec2) (obstacles : List Obstacle) : Vec2 :=
  let ahead : Vec2 := ⟨pos.x + vel.x * 0.1, pos.z + vel.z * 0.1⟩
  let push : Vec2 := obstacles.foldl
    (fun p o => ⟨p.x + (obstaclePush ahead o).x, p.z + (obstaclePush ahead o).z⟩)
    ⟨0, 0⟩
  let margin : ℝ := 28
  let dx := HALF - |pos.x|
  let dz := HALF - |pos.z|
  let fx := if dx < margin then copysign 1 pos.x * (1 - dx / margin) else 0
  let fz := if dz < margin then copysign 1 pos.z * (1 - dz / margin) else 0
  ⟨push.x - fx * 2.0, push.z - fz * 2.0⟩

/-! ## The per-tick pipeline (`get_controls`, lines 78-227) -/

/-- A request that passed validation: `drone`, `terrain`, `dt` present and
truthy, `lockedTarget` optional, `obstacles` defaulted to `[]`. -/
structure Req where
  drone : DroneState
  lockedTarget : Option Target
  terrain : Terrain
  obstacles : List Obstacle
  dt : ℝ

/-- Hunting-mode raw direction (lines 106-120): first-order intercept lead,
normalized, with fallback to the drone's forward vector near zero length. -/
def huntRawDir (drone : DroneState) (tgt : Target) : Vec2 :=
  let to_t_x := tgt.position.x - drone.position.x
  let to_t_z := tgt.position.z - drone.position.z
  let lead_x := tgt.velocity.x * 0.6
  let lead_z := tgt.velocity.z * 0.6
  let final_dir_x := to_t_x + lead_x
  let final_dir_z := to_t_z + lead_z
  let len_sq := final_dir_x ^ 2 + final_dir_z ^ 2
  if 1e-6 < len_sq then
    let inv_len := 1 / Real.sqrt len_sq
    ⟨final_dir_x * inv_len, final_dir_z * inv_len⟩
  else ⟨Real.cos drone.yaw, Real.sin drone.yaw⟩

/-- Searching-mode FSM update (lines 123-142): lazy (re)initialization, the
`transit`-phase recentering of `centerYaw`, the timer decrement, and the
hold/transit transition rule. -/
def searchStep (s : SearchState) (drone : DroneState) (dt : ℝ) : SearchState :=
  let s0 := if s.inited then s else
    { s with inited := true, centerYaw := drone.yaw, side := 1,
             timer := SWEEP_HOLD, phase := Phase.hold }
  let s1 := if s0.phase = Phase.transit then
      { s0 with centerYaw := (lerp_angle s0.centerYaw
          (atan2 (-drone.position.z) (-drone.position.x))
          (1 - Real.exp (-dt * 0.25))) }
    else s0
  let t := s1.timer - dt
  if t ≤ 0 then
    if s1.phase = Phase.hold then
      { s1 with side := -s1.side, phase := Phase.transit, timer := SWEEP_TRANSIT }
    else
      { s1 with phase := Phase.hold, timer := SWEEP_HOLD }
  else { s1 with timer := t }

/-- Searching-mode raw direction (lines 144-146). -/
def searchRawDir (s : SearchState) : Vec2 :=
  let yaw_t := wrap_angle (s.centerYaw + s.side * sweepAmp)
  ⟨Real.cos yaw_t, Real.sin yaw_t⟩

/-- The normalize-with-underflow-guard block used at lines 166-169 and
179-182: divide by the length when it exceeds `1e-6`, else leave unchanged. -/
def normGuard (v : Vec2) : Vec2 :=
  let l := Real.sqrt (v.x ^ 2 + v.z ^ 2)
  if 1e-6 < l then ⟨v.x / l, v.z / l⟩ else v

/-- Raw actuator commands (lines 184-204); `⟨hud_yaw_raw, hud_throttle_raw,
hud_pitch_raw⟩` derived from the post-avoidance desired direction `d`. -/
def raw_commands (drone : DroneState) (terrain : Terrain) (dt : ℝ) (d : Vec2) :
    Controls :=
  let desired_yaw := atan2 d.z d.x
  let yaw_error := wrap_angle (desired_yaw - drone.yaw)
  let commanded_yaw_rate :=
    clamp (yaw_error / max dt 1e-5) (-drone.maxTurn) drone.maxTurn
  let hud_yaw_raw := commanded_yaw_rate / drone.maxTurn
  let ground_ref := max terrain.height_at_drone terrain.ahead_max_height
  let target_y := ground_ref + drone.targetAlt
  let climb_err := target_y - drone.position.y
  let damping := 0.9 * drone.velocity.y
  let altitude_throttle := clamp ((climb_err - damping) * 0.2) (-1) 1
  let fwd_x := Real.cos drone.yaw
  let fwd_z := Real.sin drone.yaw
  let forward_speed := drone.velocity.x * fwd_x + drone.velocity.z * fwd_z
  let accel_err := drone.speed - forward_speed
  let power_command := clamp (accel_err * 0.1) (-1) 1
  let hud_pitch_raw := power_command
  let hud_throttle_raw := clamp (altitude_throttle + power_command * 0.5) (-1) 1
  ⟨hud_yaw_raw, hud_throttle_raw, hud_pitch_raw⟩

/-- Final output smoothing (lines 206-215): exponential blend of the raw
commands into the persistent `control_state`. -/
def smooth_commands (c : ControlState) (dt : ℝ) (raw : Controls) : ControlState :=
  let smoothing_factor := 1 - Real.exp (-dt * 10.0)
  ⟨lerp_angle c.last_yaw raw.yaw smoothing_factor,
   c.last_throttle + (raw.throttle - c.last_throttle) * smoothing_factor,
   c.last_pitch + (raw.pitch - c.last_pitch) * smoothing_factor⟩

/-- Everything a successful tick produces: the new `search_state`, the new
`control_state`, and the response payload (`controls`, `droneStatus`; the
response's `searchState` snapshot is `fsm` itself). -/
structure TickOut where
  fsm : SearchState
  ctrl : ControlState
  controls : Controls
  status : String

/-- One successful tick of `get_controls` (lines 96-221).

Note on line 171: `search_state['seekDir'] = seek_dir` stores a reference to
the very dictionary that `desired_dir` is then bound to (line 172) and that
lines 176-182 mutate in place (avoidance addition and renormalization), so the
`seekDir` that survives the tick — and is serialized in the response — is the
post-avoidance desired direction. -/
def tick (s : SearchState) (c : ControlState) (r : Req) : TickOut :=
  let drone := r.drone
  let is_hunting : Bool := r.lockedTarget.isSome
  -- line 100: the FSM has not been reset yet on the first hunting frame
  let is_newly_hunting : Bool := is_hunting && s.inited
  let s1 := if is_hunting then { s with inited := false }
            else searchStep s drone r.dt
  let raw_dir : Vec2 :=
    match r.lockedTarget with
    | some tgt => huntRawDir drone tgt
    | none => searchRawDir s1
  -- line 151: lazily seed seekDir with the forward vector
  let prev : Vec2 := s1.seekDir.getD ⟨Real.cos drone.yaw, Real.sin drone.yaw⟩
  let gain : ℝ := if is_hunting then 8.0 else 2.2
  let a := 1 - Real.exp (-r.dt * gain)
  let seek1 : Vec2 :=
    if is_newly_hunting then raw_dir
    else ⟨prev.x + (raw_dir.x - prev.x) * a, prev.z + (raw_dir.z - prev.z) * a⟩
  let seek2 := normGuard seek1
  let avoid_vec := steer_avoid drone.position seek2 r.obstacles
  let desired := normGuard ⟨seek2.x + avoid_vec.x, seek2.z + avoid_vec.z⟩
  let s2 := { s1 with seekDir := some desired }
  let cs := smooth_commands c r.dt (raw_commands drone r.terrain r.dt desired)
  ⟨s2, cs, ⟨cs.last_yaw, cs.last_throttle, cs.last_pitch⟩,
   if is_hunting then "HUNTING" else "SEARCHING"⟩

/-- The direction-smoothing stage in isolation (lines 148-169): the snapped or
exponentially blended raw direction, after its renormalization and before the
avoidance vector is added.  Used to state what the spec says is persisted. -/
def smoothStage (s : SearchState) (r : Req) : Vec2 :=
  let is_hunting : Bool := r.lockedTarget.isSome
  let is_newly_hunting : Bool := is_hunting && s.inited
  let s1 := if is_hunting then { s with inited := false }
            else searchStep s r.drone r.dt
  let raw_dir : Vec2 :=
    match r.lockedTarget with
    | some tgt => huntRawDir r.drone tgt
    | none => searchRawDir s1
  let prev : Vec2 := s1.seekDir.getD ⟨Real.cos r.drone.yaw, Real.sin r.drone.yaw⟩
  let gain : ℝ := if is_hunting then 8.0 else 2.2
  let a := 1 - Real.exp (-r.dt * gain)
  let seek1 : Vec2 :=
    if is_newly_hunting then raw_dir
    else ⟨prev.x + (raw_dir.x - prev.x) * a, prev.z + (raw_dir.z - prev.z) * a⟩
  normGuard seek1

/-- The post-avoidance desired direction (lines 175-182) as a function of the
smoothed direction `u`. -/
def desiredFinal (pos : Vec3) (u : Vec2) (obstacles : List Obstacle) : Vec2 :=
  let av := steer_avoid pos u obstacles
  normGuard ⟨u.x + av.x, u.z + av.z⟩

/-! ## The endpoint with validation (lines 78-94, 217-227) -/

/-- A top-level request field as Python truthiness sees it: absent (or JSON
null, which `dict.get` conflates with absence), present but falsy (e.g. the
empty object `{}`), or present and truthy with a well-formed payload. -/
inductive Field (α : Type) where
  | missing
  | falsy
  | val (a : α)

/-- The parsed request body: `drone`/`terrain` are tested for truthiness by
the validation (`not all([drone, terrain, dt is not None])`), `dt` only for
being non-`None`; `lockedTarget` and `obstacles` are read with `get`. -/
structure ReqBody where
  drone : Field DroneState
  lockedTarget : Option Target
  terrain : Field Terrain
  obstacles : Option (List Obstacle)
  dt : Option ℝ

/-- An HTTP response of the endpoint: a success payload or an error. -/
inductive HttpResp where
  | ok (searchState : SearchState) (controls : Controls) (droneStatus : String)
  | err (code : ℕ) (msg : String)

/-- The `/get_controls` handler (lines 78-227) over the pair of persistent
states.  `none` for the body models an empty or unparseable request (`if not
data`, which also catches a body that parsed to a falsy value). -/
def get_controls (st : SearchState × ControlState) (data : Option ReqBody) :
    HttpResp × (SearchState × ControlState) :=
  match data with
  | none => (HttpResp.err 400 "No data received", st)
  | some b =>
    match b.drone, b.terrain, b.dt with
    | Field.val drone, Field.val terrain, some dt =>
      let o := tick st.1 st.2
        ⟨drone, b.lockedTarget, terrain, b.obstacles.getD [], dt⟩
      (HttpResp.ok o.fsm o.controls o.status, (o.fsm, o.ctrl))
    | _, _, _ => (HttpResp.err 400 "Incomplete data provided", st)

/-- Folding a list of successful ticks over both persistent states. -/
def run (p : SearchState × ControlState) (rs : List Req) :
    SearchState × ControlState :=
  rs.foldl (fun q r => let o := tick q.1 q.2 r; (o.fsm, o.ctrl)) p

/-- The output-bounds invariant of the persistent `control_state`. -/
def Bounded (c : ControlState) : Prop :=
  |c.last_yaw| ≤ 1 ∧ |c.last_throttle| ≤ 1 ∧ |c.last_pitch| ≤ 1

/-! ## Helper lemmas: angle wrapping -/

lemma wrap_angle_def (a : ℝ) :
    wrap_angle a = Complex.arg (Complex.cos a + Complex.sin a * Complex.I) := by
  rw [wrap_angle, atan2, Complex.ofReal_cos, Complex.ofReal_sin]

lemma wrap_angle_mem_Ioc (a : ℝ) :
    wrap_angle a ∈ Set.Ioc (-Real.pi) Real.pi :=
  ⟨by rw [wrap_angle_def]; exact Complex.neg_pi_lt_arg _,
   by rw [wrap_angle_def]; exact Complex.arg_le_pi _⟩

lemma wrap_angle_eq_self {a : ℝ} (h : a ∈ Set.Ioc (-Real.pi) Real.pi) :
    wrap_angle a = a := by
  rw [wrap_angle_def]; exact Complex.arg_cos_add_sin_mul_I h

lemma wrap_angle_add_int_mul_two_pi (a : ℝ) (k : ℤ) :
    wrap_angle (a + 2 * Real.pi * k) = wrap_angle a := by
  rw [wrap_angle, wrap_angle,
    show a + 2 * Real.pi * k = a + k * (2 * Real.pi) by ring,
    Real.sin_add_int_mul_two_pi, Real.cos_add_int_mul_two_pi]

/-! ## Helper lemmas: clamp and interpolation bounds -/

lemma clamp_le {v lo hi : ℝ} (h : lo ≤ hi) : clamp v lo hi ≤ hi :=
  max_le h (min_le_right v hi)

lemma le_clamp (v lo hi : ℝ) : lo ≤ clamp v lo hi := le_max_left _ _

lemma abs_clamp_le_one (v : ℝ) : |clamp v (-1) 1| ≤ 1 :=
  abs_le.mpr ⟨le_clamp v (-1) 1, clamp_le (by norm_num)⟩

lemma lerp_abs_le {a b t : ℝ} (ha : |a| ≤ 1) (hb : |b| ≤ 1)
    (ht0 : 0 ≤ t) (ht1 : t ≤ 1) : |a + (b - a) * t| ≤ 1 := by
  rw [abs_le] at ha hb ⊢
  constructor <;> nlinarith [ha.1, ha.2, hb.1, hb.2]

lemma lerp_angle_abs_le {a b t : ℝ} (ha : |a| ≤ 1) (hb : |b| ≤ 1) :
    |lerp_angle a b t| ≤ 1 := by
  have hpi : (3 : ℝ) < Real.pi := Real.pi_gt_three
  have ha' := abs_le.mp ha
  have hb' := abs_le.mp hb
  have hw : wrap_angle (b - a) = b - a :=
    wrap_angle_eq_self ⟨by linarith, by linarith⟩
  have hc0 : 0 ≤ clamp t 0 1 := le_clamp t 0 1
  have hc1 : clamp t 0 1 ≤ 1 := clamp_le (by norm_num)
  have : |a + (b - a) * clamp t 0 1| ≤ 1 := lerp_abs_le ha hb hc0 hc1
  rw [lerp_angle, hw]
  exact this

lemma abs_clamp_div_le_one (e m : ℝ) (hm : 0 < m) :
    |clamp e (-m) m / m| ≤ 1 := by
  have h2 : |clamp e (-m) m| ≤ m :=
    abs_le.mpr ⟨le_clamp _ _ _, clamp_le (by linarith)⟩
  rw [abs_div, abs_of_pos hm, div_le_one hm]
  exact h2

/-! ## Helper lemmas: the smoothing filter preserves the output bounds -/

lemma raw_commands_bounded (drone : DroneState) (terrain : Terrain) (dt : ℝ)
    (d : Vec2) (hmt : 0 < drone.maxTurn) :
    |(raw_commands drone terrain dt d).yaw| ≤ 1 ∧
    |(raw_commands drone terrain dt d).throttle| ≤ 1 ∧
    |(raw_commands drone terrain dt d).pitch| ≤ 1 :=
  ⟨abs_clamp_div_le_one _ _ hmt, abs_clamp_le_one _, abs_clamp_le_one _⟩

lemma smoothing_factor_bounds {dt : ℝ} (hdt : 0 < dt) :
    0 ≤ 1 - Real.exp (-dt * 10.0) ∧ 1 - Real.exp (-dt * 10.0) ≤ 1 := by
  have h1 : Real.exp (-dt * 10.0) ≤ 1 := Real.exp_le_one_iff.mpr (by nlinarith)
  have h2 : 0 < Real.exp (-dt * 10.0) := Real.exp_pos _
  constructor <;> linarith

lemma smooth_commands_bounded {c : ControlState} {dt : ℝ} {raw : Controls}
    (hB : Bounded c) (hy : |raw.yaw| ≤ 1) (ht : |raw.throttle| ≤ 1)
    (hp : |raw.pitch| ≤ 1) (hdt : 0 < dt) :
    Bounded (smooth_commands c dt raw) := by
  obtain ⟨hf0, hf1⟩ := smoothing_factor_bounds hdt
  exact ⟨lerp_angle_abs_le hB.1 hy,
         lerp_abs_le hB.2.1 ht hf0 hf1,
         lerp_abs_le hB.2.2 hp hf0 hf1⟩

/-- The control-filter component of a tick, characterized through the
pipeline stages. -/
lemma tick_ctrl_eq (s : SearchState) (c : ControlState) (r : Req) :
    (tick s c r).ctrl = smooth_commands c r.dt (raw_commands r.drone r.terrain
      r.dt (desiredFinal r.drone.position (smoothStage s r) r.obstacles)) := rfl

/-- The response's `controls` are exactly the updated filter state. -/
lemma tick_controls_eq (s : SearchState) (c : ControlState) (r : Req) :
    (tick s c r).controls = ⟨(tick s c r).ctrl.last_yaw,
      (tick s c r).ctrl.last_throttle, (tick s c r).ctrl.last_pitch⟩ := rfl

lemma tick_bounded {s : SearchState} {c : ControlState} {r : Req}
    (hB : Bounded c) (hdt : 0 < r.dt) (hmt : 0 < r.drone.maxTurn) :
    Bounded (tick s c r).ctrl := by
  rw [tick_ctrl_eq]
  obtain ⟨h1, h2, h3⟩ := raw_commands_bounded r.drone r.terrain r.dt
    (desiredFinal r.drone.position (smoothStage s r) r.obstacles) hmt
  exact smooth_commands_bounded hB h1 h2 h3 hdt

lemma run_bounded : ∀ (rs : List Req) (p : SearchState × ControlState),
    Bounded p.2 → (∀ r ∈ rs, 0 < r.dt ∧ 0 < r.drone.maxTurn) →
    Bounded (run p rs).2 := by
  intro rs
  induction rs with
  | nil => intro p hB _; exact hB
  | cons r rs ih =>
    intro p hB hall
    have h := hall r (List.mem_cons_self r rs)
    have : Bounded (tick p.1 p.2 r).ctrl := tick_bounded hB h.1 h.2
    simpa [run, List.foldl_cons] using
      ih ((tick p.1 p.2 r).fsm, (tick p.1 p.2 r).ctrl) this
        (fun q hq => hall q (List.mem_cons_of_mem r hq))

/-! ## Claim theorems -/

/-- Claim C8: `wrap_angle` always lands in `(-π, π]`, and it is invariant
under adding an integer multiple of `2π` to its argument (exact over real
arithmetic). -/
theorem wrap_angle_range_and_periodic (a : ℝ) (k : ℤ) :
    wrap_angle a ∈ Set.Ioc (-Real.pi) Real.pi ∧
    wrap_angle (a + 2 * Real.pi * k) = wrap_angle a :=
  ⟨wrap_angle_mem_Ioc a, wrap_angle_add_int_mul_two_pi a k⟩

/-! ## Helper lemmas: the FSM component of a tick -/

/-- The FSM component of a tick, characterized through the pipeline stages:
mode update, then the (aliased) post-avoidance `seekDir` store. -/
lemma tick_fsm_eq (s : SearchState) (c : ControlState) (r : Req) :
    (tick s c r).fsm =
      { (if r.lockedTarget.isSome then { s with inited := false }
         else searchStep s r.drone r.dt) with
        seekDir := some (desiredFinal r.drone.position (smoothStage s r)
          r.obstacles) } := rfl

/-- On a searching tick the FSM fields other than `seekDir` come from
`searchStep`. -/
lemma tick_fsm_search {s : SearchState} {c : ControlState} {r : Req}
    (hL : r.lockedTarget = none) :
    (tick s c r).fsm.inited = (searchStep s r.drone r.dt).inited ∧
    (tick s c r).fsm.centerYaw = (searchStep s r.drone r.dt).centerYaw ∧
    (tick s c r).fsm.side = (searchStep s r.drone r.dt).side ∧
    (tick s c r).fsm.phase = (searchStep s r.drone r.dt).phase ∧
    (tick s c r).fsm.timer = (searchStep s r.drone r.dt).timer := by
  rw [tick_fsm_eq]
  simp [hL]

/-- Field-level description of `searchStep` when the FSM is already
initialized: the lazy init is skipped, the `transit` recentering touches only
`centerYaw`, and the timer/phase/side follow the transition rule. -/
lemma searchStep_fields {s : SearchState} (dr : DroneState) (dt : ℝ)
    (hs : s.inited = true) :
    (searchStep s dr dt).inited = true ∧
    (searchStep s dr dt).side =
      (if s.timer - dt ≤ 0 ∧ s.phase = Phase.hold then -s.side else s.side) ∧
    (searchStep s dr dt).phase =
      (if s.timer - dt ≤ 0 then
        (if s.phase = Phase.hold then Phase.transit else Phase.hold)
       else s.phase) ∧
    (searchStep s dr dt).timer =
      (if s.timer - dt ≤ 0 then
        (if s.phase = Phase.hold then SWEEP_TRANSIT else SWEEP_HOLD)
       else s.timer - dt) := by
  unfold searchStep
  simp only [hs, if_true]
  by_cases hph : s.phase = Phase.transit
  · have hph' : s.phase ≠ Phase.hold := by rw [hph]; intro h; cases h
    by_cases ht : s.timer - dt ≤ 0 <;> simp [hph, hph', ht, hs]
  · have hph' : s.phase = Phase.hold := by
      cases h : s.phase
      · rfl
      · exact absurd h hph
    by_cases ht : s.timer - dt ≤ 0 <;> simp [hph, hph', ht, hs]

/-- On a searching tick of an initialized FSM, the transition rule at the
level of `tick`. -/
lemma search_tick_proj {s : SearchState} {c : ControlState} {r : Req}
    (hL : r.lockedTarget = none) (hs : s.inited = true) :
    (tick s c r).fsm.inited = true ∧
    (tick s c r).fsm.side =
      (if s.timer - r.dt ≤ 0 ∧ s.phase = Phase.hold then -s.side else s.side) ∧
    (tick s c r).fsm.phase =
      (if s.timer - r.dt ≤ 0 then
        (if s.phase = Phase.hold then Phase.transit else Phase.hold)
       else s.phase) ∧
    (tick s c r).fsm.timer =
      (if s.timer - r.dt ≤ 0 then
        (if s.phase = Phase.hold then SWEEP_TRANSIT else SWEEP_HOLD)
       else s.timer - r.dt) := by
  obtain ⟨t1, _, t3, t4, t5⟩ := tick_fsm_search (s := s) (c := c) hL
  obtain ⟨u1, u2, u3, u4⟩ := searchStep_fields (s := s) r.drone r.dt hs
  exact ⟨t1.trans u1, t3.trans u2, t4.trans u3, t5.trans u4⟩

/-! ## Helper lemmas: dwell durations of the sweep FSM under constant dt -/

lemma hold_dwell_aux {c : ControlState} {r : Req}
    (hL : r.lockedTarget = none) (hdt : 0 < r.dt) {s : SearchState}
    (hs : s.inited = true) (hp : s.phase = Phase.hold)
    (ht : s.timer = SWEEP_HOLD) :
    ∀ j, j < ⌈SWEEP_HOLD / r.dt⌉₊ →
      ((fun st => (tick st c r).fsm)^[j] s).inited = true ∧
      ((fun st => (tick st c r).fsm)^[j] s).phase = Phase.hold ∧
      ((fun st => (tick st c r).fsm)^[j] s).side = s.side ∧
      ((fun st => (tick st c r).fsm)^[j] s).timer = SWEEP_HOLD - j * r.dt := by
  intro j
  induction j with
  | zero =>
    intro _
    exact ⟨hs, hp, rfl, by rw [Function.iterate_zero_apply, ht]; push_cast; ring⟩
  | succ j ih =>
    intro hj
    obtain ⟨h1, h2, h3, h4⟩ := ih (Nat.lt_of_succ_lt hj)
    rw [Function.iterate_succ_apply']
    set st := (fun st => (tick st c r).fsm)^[j] s with hst
    have hlt : ((j : ℝ) + 1) * r.dt < SWEEP_HOLD := by
      have h := Nat.lt_ceil.mp hj
      push_cast at h
      calc ((j : ℝ) + 1) * r.dt < SWEEP_HOLD / r.dt * r.dt :=
            (mul_lt_mul_right hdt).mpr h
        _ = SWEEP_HOLD := div_mul_cancel₀ _ (ne_of_gt hdt)
    have hpos : 0 < st.timer - r.dt := by rw [h4]; nlinarith
    obtain ⟨g1, g2, g3, g4⟩ := search_tick_proj (s := st) (c := c) hL h1
    have hcond : ¬(st.timer - r.dt ≤ 0) := not_le.mpr hpos
    refine ⟨g1, ?_, ?_, ?_⟩
    · rw [g3, if_neg hcond]; exact h2
    · rw [g2, if_neg (by intro h; exact hcond h.1)]; exact h3
    · rw [g4, if_neg hcond, h4]; push_cast; ring

lemma hold_exit {c : ControlState} {r : Req}
    (hL : r.lockedTarget = none) (hdt : 0 < r.dt) {s : SearchState}
    (hs : s.inited = true) (hp : s.phase = Phase.hold)
    (ht : s.timer = SWEEP_HOLD) :
    ((fun st => (tick st c r).fsm)^[⌈SWEEP_HOLD / r.dt⌉₊] s).inited = true ∧
    ((fun st => (tick st c r).fsm)^[⌈SWEEP_HOLD / r.dt⌉₊] s).phase =
      Phase.transit ∧
    ((fun st => (tick st c r).fsm)^[⌈SWEEP_HOLD / r.dt⌉₊] s).side = -s.side ∧
    ((fun st => (tick st c r).fsm)^[⌈SWEEP_HOLD / r.dt⌉₊] s).timer =
      SWEEP_TRANSIT := by
  have hk : 0 < ⌈SWEEP_HOLD / r.dt⌉₊ :=
    Nat.ceil_pos.mpr (div_pos (by norm_num [SWEEP_HOLD]) hdt)
  obtain ⟨m, hm⟩ : ∃ m, ⌈SWEEP_HOLD / r.dt⌉₊ = m + 1 :=
    ⟨⌈SWEEP_HOLD / r.dt⌉₊ - 1, by omega⟩
  obtain ⟨h1, h2, h3, h4⟩ := hold_dwell_aux hL hdt hs hp ht m (by omega)
  rw [hm, Function.iterate_succ_apply']
  set st := (fun st => (tick st c r).fsm)^[m] s with hst
  have hge : SWEEP_HOLD ≤ ((m : ℝ) + 1) * r.dt := by
    have h := Nat.le_ceil (SWEEP_HOLD / r.dt)
    rw [hm] at h
    push_cast at h
    calc SWEEP_HOLD = SWEEP_HOLD / r.dt * r.dt := (div_mul_cancel₀ _ (ne_of_gt hdt)).symm
      _ ≤ ((m : ℝ) + 1) * r.dt := (mul_le_mul_right hdt).mpr h
  have hcond : st.timer - r.dt ≤ 0 := by rw [h4]; nlinarith
  obtain ⟨g1, g2, g3, g4⟩ := search_tick_proj (s := st) (c := c) hL h1
  refine ⟨g1, ?_, ?_, ?_⟩
  · rw [g3, if_pos hcond, if_pos h2]
  · rw [g2, if_pos ⟨hcond, h2⟩, h3]
  · rw [g4, if_pos hcond, if_pos h2]

lemma transit_dwell_aux {c : ControlState} {r : Req}
    (hL : r.lockedTarget = none) (hdt : 0 < r.dt) {s : SearchState}
    (hs : s.inited = true) (hp : s.phase = Phase.transit)
    (ht : s.timer = SWEEP_TRANSIT) :
    ∀ j, j < ⌈SWEEP_TRANSIT / r.dt⌉₊ →
      ((fun st => (tick st c r).fsm)^[j] s).inited = true ∧
      ((fun st => (tick st c r).fsm)^[j] s).phase = Phase.transit ∧
      ((fun st => (tick st c r).fsm)^[j] s).side = s.side ∧
      ((fun st => (tick st c r).fsm)^[j] s).timer = SWEEP_TRANSIT - j * r.dt := by
  intro j
  induction j with
  | zero =>
    intro _
    exact ⟨hs, hp, rfl, by rw [Function.iterate_zero_apply, ht]; push_cast; ring⟩
  | succ j ih =>
    intro hj
    obtain ⟨h1, h2, h3, h4⟩ := ih (Nat.lt_of_succ_lt hj)
    rw [Function.iterate_succ_apply']
    set st := (fun st => (tick st c r).fsm)^[j] s with hst
    have hlt : ((j : ℝ) + 1) * r.dt < SWEEP_TRANSIT := by
      have h := Nat.lt_ceil.mp hj
      push_cast at h
      calc ((j : ℝ) + 1) * r.dt < SWEEP_TRANSIT / r.dt * r.dt :=
            (mul_lt_mul_right hdt).mpr h
        _ = SWEEP_TRANSIT := div_mul_cancel₀ _ (ne_of_gt hdt)
    have hpos : 0 < st.timer - r.dt := by rw [h4]; nlinarith
    obtain ⟨g1, g2, g3, g4⟩ := search_tick_proj (s := st) (c := c) hL h1
    have hcond : ¬(st.timer - r.dt ≤ 0) := not_le.mpr hpos
    refine ⟨g1, ?_, ?_, ?_⟩
    · rw [g3, if_neg hcond]; exact h2
    · rw [g2, if_neg (by intro h; exact hcond h.1)]; exact h3
    · rw [g4, if_neg hcond, h4]; push_cast; ring

lemma transit_exit {c : ControlState} {r : Req}
    (hL : r.lockedTarget = none) (hdt : 0 < r.dt) {s : SearchState}
    (hs : s.inited = true) (hp : s.phase = Phase.transit)
    (ht : s.timer = SWEEP_TRANSIT) :
    ((fun st => (tick st c r).fsm)^[⌈SWEEP_TRANSIT / r.dt⌉₊] s).inited = true ∧
    ((fun st => (tick st c r).fsm)^[⌈SWEEP_TRANSIT / r.dt⌉₊] s).phase =
      Phase.hold ∧
    ((fun st => (tick st c r).fsm)^[⌈SWEEP_TRANSIT / r.dt⌉₊] s).side = s.side ∧
    ((fun st => (tick st c r).fsm)^[⌈SWEEP_TRANSIT / r.dt⌉₊] s).timer =
      SWEEP_HOLD := by
  have hk : 0 < ⌈SWEEP_TRANSIT / r.dt⌉₊ :=
    Nat.ceil_pos.mpr (div_pos (by norm_num [SWEEP_TRANSIT]) hdt)
  obtain ⟨m, hm⟩ : ∃ m, ⌈SWEEP_TRANSIT / r.dt⌉₊ = m + 1 :=
    ⟨⌈SWEEP_TRANSIT / r.dt⌉₊ - 1, by omega⟩
  obtain ⟨h1, h2, h3, h4⟩ := transit_dwell_aux hL hdt hs hp ht m (by omega)
  rw [hm, Function.iterate_succ_apply']
  set st := (fun st => (tick st c r).fsm)^[m] s with hst
  have hge : SWEEP_TRANSIT ≤ ((m : ℝ) + 1) * r.dt := by
    have h := Nat.le_ceil (SWEEP_TRANSIT / r.dt)
    rw [hm] at h
    push_cast at h
    calc SWEEP_TRANSIT = SWEEP_TRANSIT / r.dt * r.dt :=
          (div_mul_cancel₀ _ (ne_of_gt hdt)).symm
      _ ≤ ((m : ℝ) + 1) * r.dt := (mul_le_mul_right hdt).mpr h
  have hcond : st.timer - r.dt ≤ 0 := by rw [h4]; nlinarith
  have hnh : st.phase ≠ Phase.hold := by rw [h2]; intro h; cases h
  obtain ⟨g1, g2, g3, g4⟩ := search_tick_proj (s := st) (c := c) hL h1
  refine ⟨g1, ?_, ?_, ?_⟩
  · rw [g3, if_pos hcond, if_neg hnh]
  · rw [g2, if_neg (by intro h; exact hnh h.2)]; exact h3
  · rw [g4, if_pos hcond, if_neg hnh]

/-- Claim C2: starting from the initial `control_state` `(0, 0, 0)`, across
any sequence of successful ticks whose requests have `dt > 0` and
`drone.maxTurn > 0`, the returned `yaw`/`throttle`/`pitch` all lie in
`[-1, 1]`, and that bound is an invariant of the filter state: one tick
preserves it, the response's `controls` equal the persisted filter state,
and it holds along any such run. -/
theorem controls_within_bounds :
    (∀ (s : SearchState) (c : ControlState) (r : Req),
      Bounded c → 0 < r.dt → 0 < r.drone.maxTurn → Bounded (tick s c r).ctrl) ∧
    (∀ (s : SearchState) (c : ControlState) (r : Req),
      (tick s c r).controls.yaw = (tick s c r).ctrl.last_yaw ∧
      (tick s c r).controls.throttle = (tick s c r).ctrl.last_throttle ∧
      (tick s c r).controls.pitch = (tick s c r).ctrl.last_pitch) ∧
    (∀ (s0 : SearchState) (rs : List Req),
      (∀ r ∈ rs, 0 < r.dt ∧ 0 < r.drone.maxTurn) →
      Bounded (run (s0, init_control_state) rs).2) := by
  refine ⟨fun s c r hB hdt hmt => tick_bounded hB hdt hmt,
          fun s c r => ⟨rfl, rfl, rfl⟩, ?_⟩
  intro s0 rs h
  refine run_bounded rs (s0, init_control_state) ?_ h
  refine ⟨?_, ?_, ?_⟩ <;> show |(0 : ℝ)| ≤ 1 <;> norm_num

/-- Witness for C2 at a concrete one-request run. -/
theorem controls_within_bounds_witness :
    Bounded (run (init_search_state, init_control_state)
      [⟨⟨⟨0, 0, 0⟩, ⟨0, 0, 0⟩, 0, 1, 0, 0⟩, none, ⟨0, 0⟩, [], 1⟩]).2 :=
  controls_within_bounds.2.2 init_search_state _ (by
    intro r hr
    rw [List.mem_singleton] at hr
    subst hr
    exact ⟨show (0 : ℝ) < 1 by norm_num, show (0 : ℝ) < 1 by norm_num⟩)

/-- Claim C3: on a searching tick of an initialized FSM, after the timer is
decremented by `dt`: reaching `≤ 0` in `hold` flips `side`, enters `transit`
and resets the timer to `0.9`; reaching `≤ 0` in `transit` enters `hold` and
resets the timer to `3.0`; otherwise phase and side are kept and the timer is
the decremented value.  Consequently, with no target and constant `dt > 0`,
from `hold` with timer `3.0` the phase stays `hold` with `side` unchanged for
`⌈3.0/dt⌉` ticks and then enters `transit` with `side` flipped exactly once
and timer `0.9`; from `transit` with timer `0.9` it stays `transit` with
`side` unchanged for `⌈0.9/dt⌉` ticks and then re-enters `hold` with timer
`3.0` and `side` unchanged. -/
theorem search_fsm_transition_and_periodicity :
    (∀ (s : SearchState) (c : ControlState) (r : Req),
      r.lockedTarget = none → s.inited = true →
      ((s.timer - r.dt ≤ 0 → s.phase = Phase.hold →
        (tick s c r).fsm.side = -s.side ∧
        (tick s c r).fsm.phase = Phase.transit ∧
        (tick s c r).fsm.timer = 0.9) ∧
       (s.timer - r.dt ≤ 0 → s.phase = Phase.transit →
        (tick s c r).fsm.side = s.side ∧
        (tick s c r).fsm.phase = Phase.hold ∧
        (tick s c r).fsm.timer = 3.0) ∧
       (0 < s.timer - r.dt →
        (tick s c r).fsm.side = s.side ∧
        (tick s c r).fsm.phase = s.phase ∧
        (tick s c r).fsm.timer = s.timer - r.dt))) ∧
    (∀ (s : SearchState) (c : ControlState) (r : Req),
      r.lockedTarget = none → 0 < r.dt → s.inited = true →
      s.phase = Phase.hold → s.timer = 3.0 →
      ((∀ j, j < ⌈(3.0 : ℝ) / r.dt⌉₊ →
        ((fun st => (tick st c r).fsm)^[j] s).phase = Phase.hold ∧
        ((fun st => (tick st c r).fsm)^[j] s).side = s.side ∧
        ((fun st => (tick st c r).fsm)^[j] s).timer = 3.0 - j * r.dt) ∧
       (((fun st => (tick st c r).fsm)^[⌈(3.0 : ℝ) / r.dt⌉₊] s).phase =
          Phase.transit ∧
        ((fun st => (tick st c r).fsm)^[⌈(3.0 : ℝ) / r.dt⌉₊] s).side =
          -s.side ∧
        ((fun st => (tick st c r).fsm)^[⌈(3.0 : ℝ) / r.dt⌉₊] s).timer =
          0.9))) ∧
    (∀ (s : SearchState) (c : ControlState) (r : Req),
      r.lockedTarget = none → 0 < r.dt → s.inited = true →
      s.phase = Phase.transit → s.timer = 0.9 →
      ((∀ j, j < ⌈(0.9 : ℝ) / r.dt⌉₊ →
        ((fun st => (tick st c r).fsm)^[j] s).phase = Phase.transit ∧
        ((fun st => (tick st c r).fsm)^[j] s).side = s.side ∧
        ((fun st => (tick st c r).fsm)^[j] s).timer = 0.9 - j * r.dt) ∧
       (((fun st => (tick st c r).fsm)^[⌈(0.9 : ℝ) / r.dt⌉₊] s).phase =
          Phase.hold ∧
        ((fun st => (tick st c r).fsm)^[⌈(0.9 : ℝ) / r.dt⌉₊] s).side =
          s.side ∧
        ((fun st => (tick st c r).fsm)^[⌈(0.9 : ℝ) / r.dt⌉₊] s).timer =
          3.0))) := by
  refine ⟨?_, ?_, ?_⟩
  · intro s c r hL hs
    obtain ⟨_, g2, g3, g4⟩ := search_tick_proj (s := s) (c := c) hL hs
    refine ⟨?_, ?_, ?_⟩
    · intro hto hph
      exact ⟨by rw [g2, if_pos ⟨hto, hph⟩],
             by rw [g3, if_pos hto, if_pos hph],
             by rw [g4, if_pos hto, if_pos hph]; rfl⟩
    · intro hto hph
      have hph' : s.phase ≠ Phase.hold := by rw [hph]; intro h; cases h
      exact ⟨by rw [g2, if_neg (fun h => hph' h.2)],
             by rw [g3, if_pos hto, if_neg hph'],
             by rw [g4, if_pos hto, if_neg hph']; rfl⟩
    · intro hpos
      have hcond : ¬(s.timer - r.dt ≤ 0) := not_le.mpr hpos
      exact ⟨by rw [g2, if_neg (fun h => hcond h.1)],
             by rw [g3, if_neg hcond],
             by rw [g4, if_neg hcond]⟩
  · intro s c r hL hdt hs hp ht
    have ht' : s.timer = SWEEP_HOLD := ht
    constructor
    · intro j hj
      obtain ⟨_, h2, h3, h4⟩ := hold_dwell_aux hL hdt hs hp ht' j hj
      exact ⟨h2, h3, h4⟩
    · obtain ⟨_, h2, h3, h4⟩ := hold_exit hL hdt hs hp ht'
      exact ⟨h2, h3, h4⟩
  · intro s c r hL hdt hs hp ht
    have ht' : s.timer = SWEEP_TRANSIT := ht
    constructor
    · intro j hj
      obtain ⟨_, h2, h3, h4⟩ := transit_dwell_aux hL hdt hs hp ht' j hj
      exact ⟨h2, h3, h4⟩
    · obtain ⟨_, h2, h3, h4⟩ := transit_exit hL hdt hs hp ht'
      exact ⟨h2, h3, h4⟩

/-- Witness for C3: from `hold` with timer `3.0` and `dt = 1`, the FSM is in
`transit` after `⌈3.0/1⌉ = 3` searching ticks. -/
theorem search_fsm_transition_and_periodicity_witness :
    ((fun st => (tick st ⟨0, 0, 0⟩
        ⟨⟨⟨0, 0, 0⟩, ⟨0, 0, 0⟩, 0, 1, 0, 0⟩, none, ⟨0, 0⟩, [], 1⟩).fsm)^[
      ⌈(3.0 : ℝ) / (1 : ℝ)⌉₊] ⟨true, 0, 1, 3.0, Phase.hold, none⟩).phase =
      Phase.transit :=
  (search_fsm_transition_and_periodicity.2.1
    ⟨true, 0, 1, 3.0, Phase.hold, none⟩ ⟨0, 0, 0⟩
    ⟨⟨⟨0, 0, 0⟩, ⟨0, 0, 0⟩, 0, 1, 0, 0⟩, none, ⟨0, 0⟩, [], 1⟩
    rfl (show (0 : ℝ) < 1 by norm_num) rfl rfl rfl).2.1

/-- Claim C9: a hunting tick leaves `centerYaw`, `side`, `phase` and `timer`
unchanged; of the FSM fields it writes only `inited` (forced `false`) and
`seekDir`. -/
theorem hunting_tick_frame (s : SearchState) (c : ControlState) (r : Req)
    (tgt : Target) (h : r.lockedTarget = some tgt) :
    (tick s c r).fsm.centerYaw = s.centerYaw ∧
    (tick s c r).fsm.side = s.side ∧
    (tick s c r).fsm.phase = s.phase ∧
    (tick s c r).fsm.timer = s.timer ∧
    (tick s c r).fsm.inited = false := by
  simp [tick_fsm_eq, h]

/-- Witness for C9 at a concrete hunting tick. -/
theorem hunting_tick_frame_witness :
    (tick ⟨true, 0.5, -1, 1.25, Phase.transit, none⟩ ⟨0, 0, 0⟩
      ⟨⟨⟨0, 0, 0⟩, ⟨0, 0, 0⟩, 0, 1, 0, 0⟩, some ⟨⟨10, 0, 0⟩, ⟨0, 0, 0⟩⟩,
       ⟨0, 0⟩, [], 1⟩).fsm.centerYaw = 0.5 ∧
    (tick ⟨true, 0.5, -1, 1.25, Phase.transit, none⟩ ⟨0, 0, 0⟩
      ⟨⟨⟨0, 0, 0⟩, ⟨0, 0, 0⟩, 0, 1, 0, 0⟩, some ⟨⟨10, 0, 0⟩, ⟨0, 0, 0⟩⟩,
       ⟨0, 0⟩, [], 1⟩).fsm.inited = false := by
  have h := hunting_tick_frame ⟨true, 0.5, -1, 1.25, Phase.transit, none⟩
    ⟨0, 0, 0⟩ ⟨⟨⟨0, 0, 0⟩, ⟨0, 0, 0⟩, 0, 1, 0, 0⟩,
      some ⟨⟨10, 0, 0⟩, ⟨0, 0, 0⟩⟩, ⟨0, 0⟩, [], 1⟩ ⟨⟨10, 0, 0⟩, ⟨0, 0, 0⟩⟩ rfl
  exact ⟨h.1, h.2.2.2.2⟩

/-! ## Helper lemmas: concrete evaluation of the direction pipeline -/

lemma real_sqrt_eq_of_sq {a b : ℝ} (hb : 0 ≤ b) (h : b ^ 2 = a) :
    Real.sqrt a = b := by rw [← h]; exact Real.sqrt_sq hb

/-- Lemma: `normGuard` fixes unit vectors. -/
lemma normGuard_unit {v : Vec2} (h : Real.sqrt (v.x ^ 2 + v.z ^ 2) = 1) :
    normGuard v = v := by
  simp only [normGuard]
  rw [h, if_pos (by norm_num : (1e-6 : ℝ) < 1)]
  simp

/-- On the hunting frame that finds the FSM still initialized, the smoothing
stage snaps to the raw intercept direction (then renormalizes it). -/
lemma smoothStage_newly_hunting {s : SearchState} {r : Req} {tgt : Target}
    (hL : r.lockedTarget = some tgt) (hs : s.inited = true) :
    smoothStage s r = normGuard (huntRawDir r.drone tgt) := by
  simp [smoothStage, hL, hs]

/-- With no obstacles and a position away from the boundary margin, the
avoidance push vanishes. -/
lemma steer_avoid_interior (pos : Vec3) (u : Vec2)
    (hx : |pos.x| + 28 ≤ HALF) (hz : |pos.z| + 28 ≤ HALF) :
    steer_avoid pos u [] = ⟨0, 0⟩ := by
  simp only [steer_avoid, List.foldl_nil]
  rw [if_neg (by push_neg; linarith), if_neg (by push_neg; linarith)]
  norm_num

/-- With a vanishing avoidance push and a unit smoothed direction, the
post-avoidance desired direction is the smoothed direction itself. -/
lemma desiredFinal_no_avoid {pos : Vec3} {u : Vec2} {obs : List Obstacle}
    (h : steer_avoid pos u obs = ⟨0, 0⟩)
    (hu : Real.sqrt (u.x ^ 2 + u.z ^ 2) = 1) :
    desiredFinal pos u obs = u := by
  simp only [desiredFinal, h, add_zero]
  exact normGuard_unit hu

/-- The intercept direction of the C4 scenario evaluates to `(1, 0)`. -/
lemma huntRawDir_c4 (vel : Vec3) (mt ta sp : ℝ) :
    huntRawDir ⟨⟨0, 0, 0⟩, vel, 0, mt, ta, sp⟩ ⟨⟨10, 0, 0⟩, ⟨0, 0, 0⟩⟩ =
      ⟨1, 0⟩ := by
  simp only [huntRawDir]
  norm_num
  rw [real_sqrt_eq_of_sq (by norm_num : (0:ℝ) ≤ 10) (by norm_num : (10:ℝ)^2 = 100)]
  norm_num

/-- Claim C4: on the tick where hunting begins while `inited` is still `true`
from the previous searching tick, `seekDir` is set to the raw intercept
direction with no blending: drone at the origin with yaw `0`, no obstacles,
locked target at `(10, 0, 0)` with zero velocity gives `seekDir = (1, 0)` on
that very tick, whatever the previous `seekDir` and the rest of the state. -/
theorem acquisition_snap (cy sd tm : ℝ) (ph : Phase) (sk : Option Vec2)
    (c : ControlState) (vel : Vec3) (mt ta sp dtv : ℝ) (terr : Terrain) :
    (tick ⟨true, cy, sd, tm, ph, sk⟩ c
      ⟨⟨⟨0, 0, 0⟩, vel, 0, mt, ta, sp⟩, some ⟨⟨10, 0, 0⟩, ⟨0, 0, 0⟩⟩,
       terr, [], dtv⟩).fsm.seekDir = some ⟨1, 0⟩ := by
  rw [tick_fsm_eq]
  have hst : smoothStage ⟨true, cy, sd, tm, ph, sk⟩
      ⟨⟨⟨0, 0, 0⟩, vel, 0, mt, ta, sp⟩, some ⟨⟨10, 0, 0⟩, ⟨0, 0, 0⟩⟩,
       terr, [], dtv⟩ = ⟨1, 0⟩ := by
    rw [smoothStage_newly_hunting rfl rfl, huntRawDir_c4]
    exact normGuard_unit (by norm_num)
  have hav : steer_avoid (⟨0, 0, 0⟩ : Vec3) (⟨1, 0⟩ : Vec2) [] = ⟨0, 0⟩ :=
    steer_avoid_interior _ _ (by norm_num [HALF]) (by norm_num [HALF])
  simp only [hst]
  rw [desiredFinal_no_avoid hav (by norm_num)]

/-- Claim C5: the hunting-mode raw direction is the normalized sum of the
relative position and `0.6` times the target velocity (horizontal plane)
whenever its squared length exceeds `1e-6`, and the drone's forward vector
`(cos yaw, sin yaw)` otherwise — the division never hits a near-zero
length. -/
theorem hunting_raw_direction (dr : DroneState) (tg : Target) (vx vz : ℝ)
    (hvx : vx = (tg.position.x - dr.position.x) + tg.velocity.x * 0.6)
    (hvz : vz = (tg.position.z - dr.position.z) + tg.velocity.z * 0.6) :
    (1e-6 < vx ^ 2 + vz ^ 2 →
      huntRawDir dr tg = ⟨vx / Real.sqrt (vx ^ 2 + vz ^ 2),
                          vz / Real.sqrt (vx ^ 2 + vz ^ 2)⟩) ∧
    (vx ^ 2 + vz ^ 2 ≤ 1e-6 →
      huntRawDir dr tg = ⟨Real.cos dr.yaw, Real.sin dr.yaw⟩) := by
  subst hvx hvz
  constructor
  · intro h
    simp only [huntRawDir]
    rw [if_pos h]
    simp [one_div, div_eq_mul_inv]
  · intro h
    simp only [huntRawDir]
    rw [if_neg (not_lt.mpr h)]

/-- Witness for C5 at the drone-at-origin, target-at-`(10,0,0)` input. -/
theorem hunting_raw_direction_witness :
    huntRawDir ⟨⟨0, 0, 0⟩, ⟨0, 0, 0⟩, 0, 1, 0, 0⟩ ⟨⟨10, 0, 0⟩, ⟨0, 0, 0⟩⟩ =
      ⟨1, 0⟩ := by
  have h := (hunting_raw_direction ⟨⟨0, 0, 0⟩, ⟨0, 0, 0⟩, 0, 1, 0, 0⟩
    ⟨⟨10, 0, 0⟩, ⟨0, 0, 0⟩⟩ 10 0 (by norm_num) (by norm_num)).1 (by norm_num)
  rw [h, real_sqrt_eq_of_sq (by norm_num : (0:ℝ) ≤ 10)
    (by norm_num : (10:ℝ)^2 = 10 ^ 2 + 0 ^ 2)]
  norm_num

/-- Claim C6: an empty/unparseable body yields HTTP 400 `"No data received"`;
a body lacking `drone`, `terrain` or `dt` yields HTTP 400 `"Incomplete data
provided"`; in both cases neither persistent state is modified. -/
theorem validation_errors :
    (∀ st : SearchState × ControlState,
      get_controls st none = (HttpResp.err 400 "No data received", st)) ∧
    (∀ (st : SearchState × ControlState) (b : ReqBody),
      b.drone = Field.missing ∨ b.terrain = Field.missing ∨ b.dt = none →
      get_controls st (some b) =
        (HttpResp.err 400 "Incomplete data provided", st)) := by
  refine ⟨fun st => rfl, ?_⟩
  intro st b h
  obtain ⟨bd, bl, bt, bo, bdt⟩ := b
  cases bd <;> cases bt <;> cases bdt <;>
    first
      | rfl
      | (rcases h with h | h | h <;> exact absurd h (by simp))

/-- Witness for C6: a body with every required field missing is rejected with
the persistent state untouched. -/
theorem validation_errors_witness :
    get_controls (init_search_state, init_control_state)
      (some ⟨Field.missing, none, Field.missing, none, none⟩) =
      (HttpResp.err 400 "Incomplete data provided",
       (init_search_state, init_control_state)) :=
  validation_errors.2 _ _ (Or.inl rfl)

/-- Claim C10: a `drone` or `terrain` field that is present but falsy (e.g.
the empty object) is rejected exactly like a missing one, because validation
tests truthiness; `dt` is only tested against `None`, so any numeric `dt`
(including `0` and negative values) passes validation and the tick is
computed. -/
theorem truthiness_validation :
    (∀ (st : SearchState × ControlState) (b : ReqBody),
      b.drone = Field.falsy →
      get_controls st (some b) =
        (HttpResp.err 400 "Incomplete data provided", st)) ∧
    (∀ (st : SearchState × ControlState) (b : ReqBody),
      b.terrain = Field.falsy →
      get_controls st (some b) =
        (HttpResp.err 400 "Incomplete data provided", st)) ∧
    (∀ (st : SearchState × ControlState) (d : DroneState) (lt : Option Target)
      (t : Terrain) (obs : Option (List Obstacle)) (dtv : ℝ),
      get_controls st (some ⟨Field.val d, lt, Field.val t, obs, some dtv⟩) =
        (HttpResp.ok (tick st.1 st.2 ⟨d, lt, t, obs.getD [], dtv⟩).fsm
           (tick st.1 st.2 ⟨d, lt, t, obs.getD [], dtv⟩).controls
           (tick st.1 st.2 ⟨d, lt, t, obs.getD [], dtv⟩).status,
         ((tick st.1 st.2 ⟨d, lt, t, obs.getD [], dtv⟩).fsm,
          (tick st.1 st.2 ⟨d, lt, t, obs.getD [], dtv⟩).ctrl))) := by
  refine ⟨?_, ?_, fun st d lt t obs dtv => rfl⟩
  · intro st b h
    obtain ⟨bd, bl, bt, bo, bdt⟩ := b
    have h' : bd = Field.falsy := h
    subst h'
    cases bt <;> cases bdt <;> rfl
  · intro st b h
    obtain ⟨bd, bl, bt, bo, bdt⟩ := b
    have h' : bt = Field.falsy := h
    subst h'
    cases bd <;> cases bdt <;> rfl

/-- Witness for C10: a falsy `drone`, a falsy `terrain`, and a `dt = 0`
request each behave as claimed at concrete inputs. -/
theorem truthiness_validation_witness :
    (get_controls (init_search_state, init_control_state)
      (some ⟨Field.falsy, none, Field.val ⟨0, 0⟩, none, some 1⟩) =
      (HttpResp.err 400 "Incomplete data provided",
       (init_search_state, init_control_state))) ∧
    (get_controls (init_search_state, init_control_state)
      (some ⟨Field.val ⟨⟨0, 0, 0⟩, ⟨0, 0, 0⟩, 0, 1, 0, 0⟩, none, Field.falsy,
        none, some 1⟩) =
      (HttpResp.err 400 "Incomplete data provided",
       (init_search_state, init_control_state))) ∧
    (get_controls (init_search_state, init_control_state)
      (some ⟨Field.val ⟨⟨0, 0, 0⟩, ⟨0, 0, 0⟩, 0, 1, 0, 0⟩, none,
        Field.val ⟨0, 0⟩, none, some 0⟩) =
      (HttpResp.ok
        (tick init_search_state init_control_state
          ⟨⟨⟨0, 0, 0⟩, ⟨0, 0, 0⟩, 0, 1, 0, 0⟩, none, ⟨0, 0⟩, [], 0⟩).fsm
        (tick init_search_state init_control_state
          ⟨⟨⟨0, 0, 0⟩, ⟨0, 0, 0⟩, 0, 1, 0, 0⟩, none, ⟨0, 0⟩, [], 0⟩).controls
        (tick init_search_state init_control_state
          ⟨⟨⟨0, 0, 0⟩, ⟨0, 0, 0⟩, 0, 1, 0, 0⟩, none, ⟨0, 0⟩, [], 0⟩).status,
       ((tick init_search_state init_control_state
          ⟨⟨⟨0, 0, 0⟩, ⟨0, 0, 0⟩, 0, 1, 0, 0⟩, none, ⟨0, 0⟩, [], 0⟩).fsm,
        (tick init_search_state init_control_state
          ⟨⟨⟨0, 0, 0⟩, ⟨0, 0, 0⟩, 0, 1, 0, 0⟩, none, ⟨0, 0⟩, [], 0⟩).ctrl))) :=
  ⟨truthiness_validation.1 _ _ rfl, truthiness_validation.2.1 _ _ rfl,
   truthiness_validation.2.2 _ _ none _ none 0⟩

/-! ## Helper lemmas: an obstacle dead ahead on the heading line -/

lemma obstaclePush_head_on (ρ d : ℝ) (hρ : 0 < ρ)
    (hd1 : 1e-6 * (ρ + 1.8) < d) (hd2 : d < ρ + 1.8) :
    obstaclePush ⟨0.1, 0⟩ ⟨⟨0.1 + d, 0⟩, ρ⟩ = ⟨-(1 - d / (ρ + 1.8)), 0⟩ := by
  have hd0 : 0 < d := lt_of_le_of_lt (by positivity) hd1
  simp only [obstaclePush]
  rw [show ((0.1:ℝ) - (0.1 + d)) ^ 2 + ((0:ℝ) - 0) ^ 2 = d ^ 2 by ring]
  rw [if_pos (by nlinarith : d ^ 2 < (ρ + 1.8) * (ρ + 1.8))]
  rw [Real.sqrt_sq hd0.le]
  rw [if_pos (by nlinarith : (1e-6 : ℝ) < d)]
  rw [show (0.1:ℝ) - (0.1 + d) = -d by ring]
  rw [show -d / d = (-1 : ℝ) by field_simp]
  norm_num

lemma steer_avoid_head_on (ρ d : ℝ) (hρ : 0 < ρ)
    (hd1 : 1e-6 * (ρ + 1.8) < d) (hd2 : d < ρ + 1.8) :
    steer_avoid ⟨0, 0, 0⟩ ⟨1, 0⟩ [⟨⟨0.1 + d, 0⟩, ρ⟩] =
      ⟨-(1 - d / (ρ + 1.8)), 0⟩ := by
  simp only [steer_avoid, List.foldl_cons, List.foldl_nil]
  rw [show (⟨(0:ℝ) + 1 * 0.1, (0:ℝ) + 0 * 0.1⟩ : Vec2) = ⟨0.1, 0⟩ by norm_num]
  rw [obstaclePush_head_on ρ d hρ hd1 hd2]
  simp only [Vec2.mk.injEq]
  norm_num [HALF]

lemma desiredFinal_head_on (ρ d : ℝ) (hρ : 0 < ρ)
    (hd1 : 1e-6 * (ρ + 1.8) < d) (hd2 : d < ρ + 1.8) :
    desiredFinal ⟨0, 0, 0⟩ ⟨1, 0⟩ [⟨⟨0.1 + d, 0⟩, ρ⟩] = ⟨1, 0⟩ := by
  have hr : (0:ℝ) < ρ + 1.8 := by linarith
  have hd0 : 0 < d := lt_of_le_of_lt (by positivity) hd1
  simp only [desiredFinal]
  rw [steer_avoid_head_on ρ d hρ hd1 hd2]
  rw [show (⟨(1:ℝ) + -(1 - d / (ρ + 1.8)), (0:ℝ) + 0⟩ : Vec2) =
    ⟨d / (ρ + 1.8), 0⟩ by simp only [Vec2.mk.injEq]; exact ⟨by ring, by norm_num⟩]
  simp only [normGuard]
  rw [show (d / (ρ + 1.8)) ^ 2 + (0:ℝ) ^ 2 = (d / (ρ + 1.8)) ^ 2 by ring]
  rw [Real.sqrt_sq (by positivity)]
  rw [if_pos ((lt_div_iff₀ hr).mpr (by linarith))]
  rw [div_self (ne_of_gt (by positivity))]
  norm_num

/-- Claim C7 counterexample: an obstacle centered exactly on the heading line
(drone at the origin heading `(1, 0)`, obstacle at `(2, 0)` with radius `1`)
is inside the activation radius, yet the post-avoidance desired direction
equals the pre-avoidance direction — the angular deviation is zero, not a
nonzero monotone deviation. -/
theorem obstacle_repulsion_counterexample :
    (((0:ℝ) + 1 * 0.1 - 2) ^ 2 + ((0:ℝ) + 0 * 0.1 - 0) ^ 2 <
      ((1 : ℝ) + 1.8) * ((1 : ℝ) + 1.8)) ∧
    desiredFinal ⟨0, 0, 0⟩ ⟨1, 0⟩ [⟨⟨2, 0⟩, 1⟩] = ⟨1, 0⟩ := by
  constructor
  · norm_num
  · have h := desiredFinal_head_on 1 1.9 (by norm_num) (by norm_num)
      (by norm_num)
    norm_num at h
    exact h

/-- Claim C7 (amended): for a single obstacle centered exactly on the heading
line at distance `d` beyond the look-ahead point, within the activation
radius, the push is anti-parallel to the heading with magnitude
`1 - d/(radius + 1.8)`, the post-avoidance desired direction is *unchanged*
(zero angular deviation), and the push magnitude strictly increases as `d`
decreases; a nonzero angular deviation requires a lateral offset. -/
theorem obstacle_repulsion_head_on (ρ d : ℝ) (hρ : 0 < ρ)
    (hd1 : 1e-6 * (ρ + 1.8) < d) (hd2 : d < ρ + 1.8) :
    steer_avoid ⟨0, 0, 0⟩ ⟨1, 0⟩ [⟨⟨0.1 + d, 0⟩, ρ⟩] =
      ⟨-(1 - d / (ρ + 1.8)), 0⟩ ∧
    desiredFinal ⟨0, 0, 0⟩ ⟨1, 0⟩ [⟨⟨0.1 + d, 0⟩, ρ⟩] = ⟨1, 0⟩ ∧
    (∀ d', d < d' → d' < ρ + 1.8 →
      1 - d' / (ρ + 1.8) < 1 - d / (ρ + 1.8)) :=
  ⟨steer_avoid_head_on ρ d hρ hd1 hd2,
   desiredFinal_head_on ρ d hρ hd1 hd2,
   fun d' h1 _ =>
     sub_lt_sub_left ((div_lt_div_iff_of_pos_right (by linarith)).mpr h1) 1⟩

/-- Witness for the amended C7 at radius `1`, distance `1`. -/
theorem obstacle_repulsion_head_on_witness :
    desiredFinal ⟨0, 0, 0⟩ ⟨1, 0⟩ [⟨⟨0.1 + 1, 0⟩, 1⟩] = ⟨1, 0⟩ :=
  (obstacle_repulsion_head_on 1 1 (by norm_num) (by norm_num)
    (by norm_num)).2.1

/-! ## Helper lemmas: the C1 boundary-avoidance scenario -/

lemma huntRawDir_c1 :
    huntRawDir ⟨⟨431, 0, 0⟩, ⟨0, 0, 0⟩, 0, 1, 0, 0⟩
      ⟨⟨431, 0, 10⟩, ⟨0, 0, 0⟩⟩ = ⟨0, 1⟩ := by
  simp only [huntRawDir]
  norm_num
  rw [real_sqrt_eq_of_sq (by norm_num : (0:ℝ) ≤ 10)
    (by norm_num : (10:ℝ)^2 = 100)]
  norm_num

lemma steer_avoid_c1 :
    steer_avoid ⟨431, 0, 0⟩ ⟨0, 1⟩ [] = ⟨-(27/14), 0⟩ := by
  simp only [steer_avoid, List.foldl_nil, copysign]
  norm_num [HALF, Vec2.mk.injEq, abs_of_pos]

lemma desiredFinal_c1_x_neg :
    (desiredFinal ⟨431, 0, 0⟩ ⟨0, 1⟩ []).x < 0 := by
  simp only [desiredFinal]
  rw [steer_avoid_c1]
  rw [show (⟨(0:ℝ) + -(27/14), (1:ℝ) + 0⟩ : Vec2) = ⟨-(27/14), 1⟩ by
    simp only [Vec2.mk.injEq]; norm_num]
  simp only [normGuard]
  have hl1 : (1:ℝ) ≤ Real.sqrt ((-(27/14) : ℝ) ^ 2 + 1 ^ 2) := by
    rw [← Real.sqrt_one]
    exact Real.sqrt_le_sqrt (by norm_num)
  rw [if_pos (lt_of_lt_of_le (by norm_num) hl1)]
  exact div_neg_of_neg_of_pos (by norm_num) (by linarith)

/-- Claim C1 counterexample: on a hunting tick next to the arena boundary
(drone at `(431, 0, 0)`, well inside no obstacle but within the boundary
margin), the persisted `seekDir` is *not* the direction-smoothing-stage value:
line 171 stores the very dictionary that lines 176-182 then mutate in place,
so the stored value has picked up the boundary-avoidance push (its `x`
component is negative while the smoothing-stage value is `(0, 1)`). -/
theorem seekdir_persistence_counterexample :
    (tick ⟨true, 0, 1, 3, Phase.hold, none⟩ ⟨0, 0, 0⟩
      ⟨⟨⟨431, 0, 0⟩, ⟨0, 0, 0⟩, 0, 1, 0, 0⟩, some ⟨⟨431, 0, 10⟩, ⟨0, 0, 0⟩⟩,
       ⟨0, 0⟩, [], 1⟩).fsm.seekDir ≠
    some (smoothStage ⟨true, 0, 1, 3, Phase.hold, none⟩
      ⟨⟨⟨431, 0, 0⟩, ⟨0, 0, 0⟩, 0, 1, 0, 0⟩, some ⟨⟨431, 0, 10⟩, ⟨0, 0, 0⟩⟩,
       ⟨0, 0⟩, [], 1⟩) := by
  have hsm : smoothStage ⟨true, 0, 1, 3, Phase.hold, none⟩
      ⟨⟨⟨431, 0, 0⟩, ⟨0, 0, 0⟩, 0, 1, 0, 0⟩, some ⟨⟨431, 0, 10⟩, ⟨0, 0, 0⟩⟩,
       ⟨0, 0⟩, [], 1⟩ = ⟨0, 1⟩ := by
    rw [smoothStage_newly_hunting rfl rfl, huntRawDir_c1]
    exact normGuard_unit (by norm_num)
  have hseek : (tick ⟨true, 0, 1, 3, Phase.hold, none⟩ ⟨0, 0, 0⟩
      ⟨⟨⟨431, 0, 0⟩, ⟨0, 0, 0⟩, 0, 1, 0, 0⟩, some ⟨⟨431, 0, 10⟩, ⟨0, 0, 0⟩⟩,
       ⟨0, 0⟩, [], 1⟩).fsm.seekDir =
      some (desiredFinal ⟨431, 0, 0⟩ ⟨0, 1⟩ []) := by
    calc (tick ⟨true, 0, 1, 3, Phase.hold, none⟩ ⟨0, 0, 0⟩
        ⟨⟨⟨431, 0, 0⟩, ⟨0, 0, 0⟩, 0, 1, 0, 0⟩, some ⟨⟨431, 0, 10⟩, ⟨0, 0, 0⟩⟩,
         ⟨0, 0⟩, [], 1⟩).fsm.seekDir =
        some (desiredFinal ⟨431, 0, 0⟩ (smoothStage ⟨true, 0, 1, 3, Phase.hold,
          none⟩ ⟨⟨⟨431, 0, 0⟩, ⟨0, 0, 0⟩, 0, 1, 0, 0⟩,
          some ⟨⟨431, 0, 10⟩, ⟨0, 0, 0⟩⟩, ⟨0, 0⟩, [], 1⟩) []) := rfl
      _ = some (desiredFinal ⟨431, 0, 0⟩ ⟨0, 1⟩ []) := by rw [hsm]
  intro h
  rw [hseek, hsm] at h
  have hx := desiredFinal_c1_x_neg
  injection h with h'
  rw [h'] at hx
  norm_num at hx

/-- Claim C1 (amended): because line 171 stores a reference that lines
176-182 mutate in place, the `seekDir` persisted by a successful tick is the
*post-avoidance* renormalized desired direction; it coincides with the
direction-smoothing-stage value exactly in the case that the avoidance push
is zero (and the smoothed direction is unit length), not in general. -/
theorem seekdir_persists_post_avoidance :
    (∀ (s : SearchState) (c : ControlState) (r : Req),
      (tick s c r).fsm.seekDir =
        some (desiredFinal r.drone.position (smoothStage s r) r.obstacles)) ∧
    (∀ (s : SearchState) (c : ControlState) (r : Req),
      steer_avoid r.drone.position (smoothStage s r) r.obstacles = ⟨0, 0⟩ →
      Real.sqrt ((smoothStage s r).x ^ 2 + (smoothStage s r).z ^ 2) = 1 →
      (tick s c r).fsm.seekDir = some (smoothStage s r)) := by
  refine ⟨fun s c r => rfl, fun s c r hav hu => ?_⟩
  have h : (tick s c r).fsm.seekDir =
      some (desiredFinal r.drone.position (smoothStage s r) r.obstacles) := rfl
  rw [h, desiredFinal_no_avoid hav hu]

/-- Witness for the amended C1: with no obstacles and the drone at the
origin, the persisted `seekDir` equals the smoothing-stage value. -/
theorem seekdir_persists_post_avoidance_witness :
    (tick ⟨true, 0, 1, 3, Phase.hold, none⟩ ⟨0, 0, 0⟩
      ⟨⟨⟨0, 0, 0⟩, ⟨0, 0, 0⟩, 0, 1, 0, 0⟩, some ⟨⟨10, 0, 0⟩, ⟨0, 0, 0⟩⟩,
       ⟨0, 0⟩, [], 1⟩).fsm.seekDir =
      some (smoothStage ⟨true, 0, 1, 3, Phase.hold, none⟩
        ⟨⟨⟨0, 0, 0⟩, ⟨0, 0, 0⟩, 0, 1, 0, 0⟩, some ⟨⟨10, 0, 0⟩, ⟨0, 0, 0⟩⟩,
         ⟨0, 0⟩, [], 1⟩) := by
  apply seekdir_persists_post_avoidance.2
  · exact steer_avoid_interior _ _ (by norm_num [HALF]) (by norm_num [HALF])
  · rw [smoothStage_newly_hunting rfl rfl, huntRawDir_c4,
      normGuard_unit (by norm_num)]
    norm_num

end

end AiServer
